import Mathlib

/-!
Verification of the CHIP-8 emulator core (src/src/emulator.rs).

The development shallowly embeds the emulation thread of `emulator.rs`:
the machine record `C8`, the draw-sprite loop of the `0xDXYN` arm, the
big decode/execute match of the `execute_opcodes` closure, the snapshot
publisher `send_state`, the 60 Hz handler `execute_render`, and the
SDL event handling of `Emulator::start` (key presses and releases).

Machine integers are modelled as `Nat` with explicit `% 256` / `% 65536`
where the Rust code uses `u8` / `u16` wrapping arithmetic.  A Rust
index-out-of-bounds abort (array or slice indexing outside the fixed
array sizes, or `Option::unwrap` on `None`) is modelled as the `none`
outcome of an `Option`-valued step; `some` is a completed instruction.
-/

namespace Chip8

/-- Pointwise update of a `Nat`-indexed store (models writing one array slot). -/
def upd (f : Nat → Nat) (i v : Nat) : Nat → Nat :=
  fun j => if j = i then v else f j

/-- Pointwise update of a boolean store (models writing one `bool` array slot). -/
def updB (f : Nat → Bool) (i : Nat) (v : Bool) : Nat → Bool :=
  fun j => if j = i then v else f j

/-- The machine record `C8` of emulator.rs.

`memory` holds 4096 bytes (indices 0 to 4095), `V` the 16 registers,
`stack` the 16 return slots; out-of-range indices are never read by the
embedding without an explicit bounds check mirroring the Rust array
indexing. -/
structure C8 where
  memory : Nat → Nat
  V : Nat → Nat
  I : Nat
  PC : Nat
  stack : Nat → Nat
  SP : Nat
  delay_timer : Nat
  sound_timer : Nat
  endloop : Bool

/-- `C8::default()`: zeroed machine with `PC = 0x200` and `SP = 0`. -/
def C8.init : C8 :=
  { memory := fun _ => 0, V := fun _ => 0, I := 0, PC := 0x200
    stack := fun _ => 0, SP := 0, delay_timer := 0, sound_timer := 0
    endloop := false }

/-- The whole state owned by the emulation thread: the machine `internals`,
the 64 x 32 framebuffer `gbuf` (flat index `x + y * 64`), the pressed-key
array `key_states`, the key-wait latch `wfi_register` (-1 when idle, the
destination register index while waiting), the cached pause flag `frozen`,
and the shared snapshot record: the trace `log` and the `published` copy
of the machine state. -/
structure EmuState where
  internals : C8
  gbuf : Nat → Nat
  key_states : Nat → Bool
  wfi_register : Int
  frozen : Bool
  log : List String
  published : C8

/-! ### Trace-line formatting

`execute_opcodes` builds each trace line with Rust `format!`; the helpers
below reproduce the zero-padded upper-case hexadecimal (`{:04X}` etc.) and
decimal placeholders used by the descriptions. -/

/-- One upper-case hexadecimal digit. -/
def hexDigit (n : Nat) : Char :=
  if n < 10 then Char.ofNat (48 + n) else Char.ofNat (55 + n)

/-- Hexadecimal digit list of `n` (empty for 0), most significant first.
The first argument is recursion fuel; 8 digits suffice for all values
appearing in the emulator. -/
def hexChars : Nat → Nat → List Char
  | 0, _ => []
  | fuel + 1, n => if n = 0 then [] else hexChars fuel (n / 16) ++ [hexDigit (n % 16)]

/-- `{:0wX}` formatting: upper-case hexadecimal, zero padded to `width`. -/
def hexPad (width n : Nat) : String :=
  let ds := if n = 0 then [Char.ofNat 48] else hexChars 8 n
  String.mk (List.replicate (width - ds.length) (Char.ofNat 48) ++ ds)

/-- Decimal digit list of a positive `n`, most significant first. -/
def decChars : Nat → Nat → List Char
  | 0, _ => []
  | fuel + 1, n => if n = 0 then [] else decChars fuel (n / 10) ++ [Char.ofNat (48 + n % 10)]

/-- `{}` formatting of an unsigned integer. -/
def decStr (n : Nat) : String :=
  if n = 0 then String.mk [Char.ofNat 48] else String.mk (decChars 20 n)

/-! ### The draw-sprite loop (`0xDXYN` arm) -/

/-- One iteration of the inner `for j in 0..8` loop of the `0xDXYN` arm:
if bit `j` (most significant first) of the sprite byte `pixel` is set,
the flag accumulator takes the maximum with the pre-XOR cell value and
the cell at `(j+sx) % 64 + ((i+sy) % 32) * 64` is XORed with 1.
The state is the pair (framebuffer, `V[0xF]` accumulator). -/
def drawBit (sx sy i pixel : Nat) (st : (Nat → Nat) × Nat) (j : Nat) :
    (Nat → Nat) × Nat :=
  if 0 < Nat.land pixel (128 >>> j) then
    (upd st.1 ((j + sx) % 64 + ((i + sy) % 32) * 64)
       (Nat.xor (st.1 ((j + sx) % 64 + ((i + sy) % 32) * 64)) 1),
     Nat.max st.2 (st.1 ((j + sx) % 64 + ((i + sy) % 32) * 64)))
  else st

/-- One iteration of the outer `for i in 0..n` loop: reads the sprite byte
`memory[I + i]` and runs the inner loop over its 8 bits. -/
def drawRow (mem : Nat → Nat) (I sx sy i : Nat) (st : (Nat → Nat) × Nat) :
    (Nat → Nat) × Nat :=
  (List.range 8).foldl (drawBit sx sy i (mem (I + i) % 256)) st

/-- The full `0xDXYN` loop.  Each row access `memory[I + i]` is
bounds-checked exactly as Rust array indexing is: an out-of-range read
aborts the instruction (`none`, an index-out-of-bounds panic). -/
def drawRows (mem : Nat → Nat) (I sx sy n : Nat) (st : (Nat → Nat) × Nat) :
    Option ((Nat → Nat) × Nat) :=
  (List.range n).foldlM
    (fun st2 i => if I + i < 4096 then some (drawRow mem I sx sy i st2) else none) st

/-! ### The decode/execute match -/

/-- The decode/execute `match opcode >> 12` block of `execute_opcodes`,
applied after the `PC += 2` pre-increment.  `rnd` is the byte drawn from
the random generator (used only by the `0xCXKK` arm).  The result is the
new state together with the one-line textual description of the
instruction; `none` is a Rust index-out-of-bounds panic (stack overflow
or underflow, memory or key index out of range). -/
def execInstr (rnd opcode : Nat) (s : EmuState) : Option (EmuState × String) :=
  match opcode / 4096 with
  | 0 =>
    match opcode % 256 with
    | 0xE0 =>
      some ({ s with gbuf := fun _ => 0 }, "Clearing screen")
    | 0xEE =>
      if 1 ≤ s.internals.SP ∧ s.internals.SP - 1 < 16 then
        some ({ s with internals := { s.internals with
                  SP := s.internals.SP - 1,
                  PC := s.internals.stack (s.internals.SP - 1) } },
              "Reuturning from subroutine to: 0x" ++
                hexPad 3 (s.internals.stack (s.internals.SP - 1)))
      else none
    | _ => some (s, "Unknown/unimplemented instruction")
  | 1 =>
    let nnn := opcode % 4096
    if s.internals.PC - 2 = nnn then
      some ({ s with internals := { s.internals with endloop := true, PC := nnn } },
            "Endloop")
    else
      some ({ s with internals := { s.internals with PC := nnn } },
            "Jumping to location 0x" ++ hexPad 3 nnn)
  | 2 =>
    let nnn := opcode % 4096
    if s.internals.SP < 16 then
      some ({ s with internals := { s.internals with
                stack := upd s.internals.stack s.internals.SP s.internals.PC,
                SP := s.internals.SP + 1,
                PC := nnn } },
            "Jumping to subroutine at 0x" ++ hexPad 3 nnn)
    else none
  | 3 =>
    let x := (opcode / 256) % 16
    let rr := opcode % 256
    let desc := "Skipping next instruction if V" ++ hexPad 1 x ++ "(0x" ++
      hexPad 2 (s.internals.V x) ++ ") == 0x" ++ hexPad 2 rr
    if s.internals.V x = rr then
      some ({ s with internals := { s.internals with PC := (s.internals.PC + 2) % 65536 } }, desc)
    else some (s, desc)
  | 4 =>
    let x := (opcode / 256) % 16
    let rr := opcode % 256
    let desc := "Skipping next instruction if V" ++ hexPad 1 x ++ "(0x" ++
      hexPad 2 (s.internals.V x) ++ ") != 0x" ++ hexPad 2 rr
    if s.internals.V x ≠ rr then
      some ({ s with internals := { s.internals with PC := (s.internals.PC + 2) % 65536 } }, desc)
    else some (s, desc)
  | 5 =>
    let x := (opcode / 256) % 16
    let y := (opcode / 16) % 16
    let desc := "Skipping next instruction if V" ++ hexPad 1 x ++ "(0x" ++
      hexPad 2 (s.internals.V x) ++ ") == V" ++ hexPad 1 y ++ "(0x" ++
      hexPad 2 (s.internals.V y) ++ ")"
    if s.internals.V x = s.internals.V y then
      some ({ s with internals := { s.internals with PC := (s.internals.PC + 2) % 65536 } }, desc)
    else some (s, desc)
  | 6 =>
    let x := (opcode / 256) % 16
    let rr := opcode % 256
    some ({ s with internals := { s.internals with V := upd s.internals.V x rr } },
          "Moving 0x" ++ hexPad 2 rr ++ " into V" ++ hexPad 1 x)
  | 7 =>
    let x := (opcode / 256) % 16
    let rr := opcode % 256
    some ({ s with internals := { s.internals with
              V := upd s.internals.V x ((s.internals.V x + rr) % 256) } },
          "Adding 0x" ++ hexPad 2 rr ++ " to V" ++ hexPad 1 x)
  | 8 =>
    let x := (opcode / 256) % 16
    let y := (opcode / 16) % 16
    match opcode % 16 with
    | 0 =>
      some ({ s with internals := { s.internals with
                V := upd s.internals.V x (s.internals.V y) } },
            "Moving V" ++ hexPad 1 y ++ " into V" ++ hexPad 1 x)
    | 1 =>
      some ({ s with internals := { s.internals with
                V := upd (upd s.internals.V x
                        (Nat.lor (s.internals.V x) (s.internals.V y))) 15 0 } },
            "Adding V" ++ hexPad 1 x ++ "to V" ++ hexPad 1 x ++ " OR V" ++ hexPad 1 y ++ ")")
    | 2 =>
      some ({ s with internals := { s.internals with
                V := upd (upd s.internals.V x
                        (Nat.land (s.internals.V x) (s.internals.V y))) 15 0 } },
            "Set V" ++ hexPad 1 x ++ " to V" ++ hexPad 1 x ++ " AND V" ++ hexPad 1 y)
    | 3 =>
      some ({ s with internals := { s.internals with
                V := upd (upd s.internals.V x
                        (Nat.xor (s.internals.V x) (s.internals.V y))) 15 0 } },
            "Set V" ++ hexPad 1 x ++ " to V" ++ hexPad 1 x ++ " XOR V" ++ hexPad 1 y)
    | 4 =>
      let V1 := upd s.internals.V 15
        (if s.internals.V x + s.internals.V y > 255 then 1 else 0)
      some ({ s with internals := { s.internals with
                V := upd V1 x ((V1 x + V1 y) % 256) } },
            "Add V" ++ hexPad 1 y ++ " to V" ++ hexPad 1 x ++ " and store carry in VF")
    | 5 =>
      let V1 := upd s.internals.V 15
        (if s.internals.V x > s.internals.V y then 1 else 0)
      some ({ s with internals := { s.internals with
                V := upd V1 x ((V1 x + 256 - V1 y) % 256) } },
            "Subtract V" ++ hexPad 1 y ++ " from V" ++ hexPad 1 x ++
              " and store the borrow in VF")
    | 6 =>
      let V1 := upd s.internals.V 15 (Nat.land (s.internals.V x) 1)
      some ({ s with internals := { s.internals with
                V := upd V1 x (V1 x / 2) } },
            "Shift V" ++ hexPad 1 x ++ " to the right least significant bit goes to VF")
    | 7 =>
      let V1 := upd s.internals.V 15
        (if s.internals.V y > s.internals.V x then 1 else 0)
      some ({ s with internals := { s.internals with
                V := upd V1 x ((V1 y + 256 - V1 x) % 256) } },
            "Subtract V" ++ hexPad 1 x ++ " from V" ++ hexPad 1 y ++
              " store the result to V" ++ hexPad 1 x ++ " and store the borrow in VF")
    | 0xE =>
      let V1 := upd s.internals.V 15 (s.internals.V x / 128)
      some ({ s with internals := { s.internals with
                V := upd V1 x ((V1 x * 2) % 256) } },
            "Shift V" ++ hexPad 1 x ++ " to the left most significant bit goes to VF")
    | _ => some (s, "Unknown/unimplemented instruction")
  | 9 =>
    let x := (opcode / 256) % 16
    let y := (opcode / 16) % 16
    let desc := "Skipping next instruction if V" ++ hexPad 1 x ++ " != V" ++ hexPad 1 y
    if s.internals.V x ≠ s.internals.V y then
      some ({ s with internals := { s.internals with PC := (s.internals.PC + 2) % 65536 } }, desc)
    else some (s, desc)
  | 0xA =>
    let nnn := opcode % 4096
    some ({ s with internals := { s.internals with I := nnn } },
          "Put 0x" ++ hexPad 3 nnn ++ " into I")
  | 0xB =>
    let nnn := opcode % 4096
    some ({ s with internals := { s.internals with
              PC := (nnn + s.internals.V 0) % 65536 } },
          "Jump to I + 0x" ++ hexPad 3 nnn)
  | 0xC =>
    let x := (opcode / 256) % 16
    let kk := opcode % 256
    some ({ s with internals := { s.internals with
              V := upd s.internals.V x (Nat.land (rnd % 256) kk) } },
          "Set V" ++ hexPad 1 x ++ " to random number in [0,255] & 0x" ++ hexPad 2 kk)
  | 0xD =>
    let x := (opcode / 256) % 16
    let y := (opcode / 16) % 16
    let n := opcode % 16
    let sx := s.internals.V x
    let sy := s.internals.V y
    let V1 := upd s.internals.V 15 0
    match drawRows s.internals.memory s.internals.I sx sy n (s.gbuf, V1 15) with
    | none => none
    | some st =>
      some ({ s with internals := { s.internals with V := upd V1 15 st.2 },
                     gbuf := st.1 },
            "Draw sprite at " ++ decStr sx ++ ", " ++ decStr sy ++
              " with length " ++ decStr n)
  | 0xE =>
    let x := (opcode / 256) % 16
    match opcode % 256 with
    | 0x9E =>
      let desc := "Skipping next instruction if key in V" ++ hexPad 1 x ++ " (" ++
        hexPad 1 (s.internals.V x) ++ ") is pressed"
      if s.internals.V x < 16 then
        if s.key_states (s.internals.V x) then
          some ({ s with internals := { s.internals with PC := (s.internals.PC + 2) % 65536 } }, desc)
        else some (s, desc)
      else none
    | 0xA1 =>
      let desc := "Skipping next instruction if key in V" ++ hexPad 1 x ++ " (" ++
        hexPad 1 (s.internals.V x) ++ ") is not pressed"
      if s.internals.V x < 16 then
        if ¬ s.key_states (s.internals.V x) then
          some ({ s with internals := { s.internals with PC := (s.internals.PC + 2) % 65536 } }, desc)
        else some (s, desc)
      else none
    | _ => some (s, "Unknown/unimplemented instruction")
  | 0xF =>
    let x := (opcode / 256) % 16
    match opcode % 256 with
    | 0x7 =>
      some ({ s with internals := { s.internals with
                V := upd s.internals.V x s.internals.delay_timer } },
            "Putting value of delay timer into V" ++ hexPad 1 x)
    | 0xA =>
      some ({ s with wfi_register := Int.ofNat x },
            "Waiting for keypress and storing result into V" ++ hexPad 1 x)
    | 0x15 =>
      some ({ s with internals := { s.internals with delay_timer := s.internals.V x } },
            "Setting delay timer to the value of V" ++ hexPad 1 x)
    | 0x18 =>
      some ({ s with internals := { s.internals with sound_timer := s.internals.V x } },
            "Setting sound timer to the value of V" ++ hexPad 1 x)
    | 0x1E =>
      some ({ s with internals := { s.internals with
                I := (s.internals.I + s.internals.V x) % 65536 } },
            "Adding the value of V" ++ hexPad 1 x ++ " to I")
    | 0x29 =>
      some ({ s with internals := { s.internals with I := s.internals.V x * 5 } },
            "Setting I to location of the sprite of the digit " ++ hexPad 1 x)
    | 0x33 =>
      if s.internals.I + 2 < 4096 then
        some ({ s with internals := { s.internals with
                  memory := upd (upd (upd s.internals.memory
                    s.internals.I (s.internals.V x / 100))
                    (s.internals.I + 1) ((s.internals.V x / 10) % 10))
                    (s.internals.I + 2) (s.internals.V x % 10) } },
              "Storing BCD representation of V" ++ hexPad 1 x ++ " into location I")
      else none
    | 0x55 =>
      if s.internals.I + x < 4096 then
        some ({ s with internals := { s.internals with
                  memory := fun a =>
                    if s.internals.I ≤ a ∧ a ≤ s.internals.I + x then
                      s.internals.V (a - s.internals.I)
                    else s.internals.memory a } },
              "Storing values of register [0, " ++ hexPad 1 x ++ "] into memory at I")
      else none
    | 0x65 =>
      if s.internals.I + x < 4096 then
        some ({ s with internals := { s.internals with
                  V := fun r =>
                    if r ≤ x then s.internals.memory (s.internals.I + r)
                    else s.internals.V r } },
              "Loading values of register [0, " ++ hexPad 1 x ++ "] from address I")
      else none
    | _ => some (s, "Unknown/unimplemented instruction")
  | _ => some (s, "Unknown/unimplemented instruction")

/-! ### Snapshot publisher -/

/-- Append a trace line and evict the oldest entry beyond 100
(`push` followed by `remove(0)` when the length exceeds 100). -/
def pushTrace (log : List String) (line : String) : List String :=
  let l := log ++ [line]
  if l.length > 100 then l.tail else l

/-- `Emulator::send_state`: skip the append (and the state copy) when
`endloop` is set and the new line equals the last logged line; otherwise
append with FIFO eviction and overwrite the published machine state.
When `endloop` is set and the log is empty, the Rust code unwraps
`last()` on an empty vector: that abort is the `none` outcome. -/
def send_state (log : List String) (published : C8) (line : String) (internals : C8) :
    Option (List String × C8) :=
  if internals.endloop then
    match log.getLast? with
    | none => none
    | some prev =>
      if line = prev then some (log, published)
      else some (pushTrace log line, internals)
  else some (pushTrace log line, internals)

/-- The `execute_opcodes` closure: one instruction tick.  `freeze` is the
shared pause flag read under the lock at the start of the tick (it is
cached into `frozen` so the 60 Hz handler can see it); `rnd` feeds the
`0xCXKK` arm.  A fetch outside memory, or an aborting instruction, or the
`send_state` abort, is `none`. -/
def execute_opcodes (freeze : Bool) (rnd : Nat) (s0 : EmuState) : Option EmuState :=
  let s := { s0 with frozen := freeze }
  if s.frozen then some s
  else if s.wfi_register ≠ -1 then some s
  else if s.internals.PC < 4096 ∧ (s.internals.PC + 1) % 65536 < 4096 then
    let opcode := (s.internals.memory s.internals.PC % 256) * 256 +
      s.internals.memory ((s.internals.PC + 1) % 65536) % 256
    let old_pc := s.internals.PC
    let s1 := { s with internals := { s.internals with PC := (s.internals.PC + 2) % 65536 } }
    match execInstr rnd opcode s1 with
    | none => none
    | some (s2, desc) =>
      let line := hexPad 4 old_pc ++ ": " ++ hexPad 4 opcode ++ " - " ++ desc
      match send_state s2.log s2.published line s2.internals with
      | none => none
      | some lp => some { s2 with log := lp.1, published := lp.2 }
  else none

/-- The `execute_render` closure at the 60 Hz rate, restricted to its
state effect: unless the cached pause flag is set, each timer above zero
is decremented (the framebuffer handoff and repaint request touch no
machine state). -/
def execute_render (s : EmuState) : EmuState :=
  if ¬ s.frozen then
    { s with internals := { s.internals with
        delay_timer := s.internals.delay_timer -
          (if s.internals.delay_timer > 0 then 1 else 0),
        sound_timer := s.internals.sound_timer -
          (if s.internals.sound_timer > 0 then 1 else 0) } }
  else s

/-! ### Host events -/

/-- `Emulator::keycode_to_index`: first logical key index (0 to 15) whose
keymap entry equals the host keycode. -/
def keycode_to_index (keycode : Nat) (keymap : Nat → Nat) : Option Nat :=
  (List.range 16).find? (fun i => keycode = keymap i)

/-- A host keyboard event as seen by the emulation loop. -/
inductive Event where
  | keyDown (keycode : Nat)
  | keyUp (keycode : Nat)

/-- The `KeyDown` / `KeyUp` handling in the event loop of
`Emulator::start`: a mapped key press sets its `key_states` slot and, when
the key-wait latch is armed and the cached pause flag is clear, writes the
key index into the waited-on register and clears the latch; a mapped key
release only clears its `key_states` slot; unmapped keycodes do nothing. -/
def handle_event (keymap : Nat → Nat) (e : Event) (s : EmuState) : EmuState :=
  match e with
  | Event.keyDown keycode =>
    match keycode_to_index keycode keymap with
    | some key =>
      let s1 := { s with key_states := updB s.key_states key true }
      if s1.wfi_register ≠ -1 ∧ s1.frozen = false then
        { s1 with
          internals := { s1.internals with
            V := upd s1.internals.V s1.wfi_register.toNat key },
          wfi_register := -1 }
      else s1
    | none => s
  | Event.keyUp keycode =>
    match keycode_to_index keycode keymap with
    | some key => { s with key_states := updB s.key_states key false }
    | none => s

/-! ### Startup -/

/-- The font sprite table loaded into `memory[0..80)`. -/
def fontset : List Nat :=
  [0xF0, 0x90, 0x90, 0x90, 0xF0,
   0x20, 0x60, 0x20, 0x20, 0x70,
   0xF0, 0x10, 0xF0, 0x80, 0xF0,
   0xF0, 0x10, 0xF0, 0x10, 0xF0,
   0x90, 0x90, 0xF0, 0x10, 0x10,
   0xF0, 0x80, 0xF0, 0x10, 0xF0,
   0xF0, 0x80, 0xF0, 0x90, 0xF0,
   0xF0, 0x10, 0x20, 0x40, 0x40,
   0xF0, 0x90, 0xF0, 0x90, 0xF0,
   0xF0, 0x90, 0xF0, 0x10, 0xF0,
   0xF0, 0x90, 0xF0, 0x90, 0x90,
   0xE0, 0x90, 0xE0, 0x90, 0xE0,
   0xF0, 0x80, 0x80, 0x80, 0xF0,
   0xE0, 0x90, 0x90, 0x90, 0xE0,
   0xF0, 0x80, 0xF0, 0x80, 0xF0,
   0xF0, 0x80, 0xF0, 0x80, 0x80]

/-- Memory after `Emulator::start` seeds it: the font table at the
bottom, the program image from 0x200, zeroes elsewhere. -/
def initMemory (prog : List Nat) : Nat → Nat :=
  fun a =>
    if a < 80 then fontset.getD a 0
    else if 0x200 ≤ a ∧ a < 0x200 + prog.length then prog.getD (a - 0x200) 0
    else 0

/-- The emulation-thread state right after startup: default machine with
the seeded memory, cleared framebuffer, no key pressed, idle key-wait
latch, cleared trace log and default published copy
(`Emulator::new` clears both shared fields). -/
def initState (prog : List Nat) : EmuState :=
  { internals := { C8.init with memory := initMemory prog }
    gbuf := fun _ => 0
    key_states := fun _ => false
    wfi_register := -1
    frozen := false
    log := []
    published := C8.init }


/-! ### Specification-side characterization of the draw

The next four definitions follow the wording of the specification
(section 4.3): the set of framebuffer cells a `0xDXYN` draw touches is
the set of cells `((V[X]+column) mod 64, (V[Y]+row) mod 32)` for every
set sprite bit, and the collision flag is the maximum of the pre-XOR
cell values over those cells.  They are compared with the source-level
loop `drawRows` in the theorems below. -/

/-- Bit `col` (most significant first) of sprite byte `row` is set. -/
def spriteBit (mem : Nat → Nat) (I i j : Nat) : Bool :=
  decide (0 < Nat.land (mem (I + i) % 256) (128 >>> j))

/-- Flat framebuffer index of the wrapped target cell of sprite bit
`(row i, column j)` drawn at origin `(sx, sy)`. -/
def cellIdx (sx sy i j : Nat) : Nat :=
  (j + sx) % 64 + ((i + sy) % 32) * 64

/-- Cells touched by row `i` of the sprite, in column order. -/
def rowCells (mem : Nat → Nat) (I sx sy i : Nat) : List Nat :=
  ((List.range 8).filter (fun j => spriteBit mem I i j)).map (fun j => cellIdx sx sy i j)

/-- All cells touched by an `n`-row sprite, row by row. -/
def touchedCells (mem : Nat → Nat) (I sx sy n : Nat) : List Nat :=
  (List.range n).flatMap (fun i => rowCells mem I sx sy i)

/-- Touching one cell: XOR it with 1 and fold its pre-XOR value into the
collision-flag accumulator by maximum. -/
def touchStep (st : (Nat → Nat) × Nat) (c : Nat) : (Nat → Nat) × Nat :=
  (upd st.1 c (Nat.xor (st.1 c) 1), Nat.max st.2 (st.1 c))

/-! ### Reachable snapshot records -/

/-- The snapshot records (trace log, published machine copy) reachable
through `send_state` from the record that `Emulator::new` initializes:
cleared trace log and default machine copy. -/
inductive SnapReachable : List String → C8 → Prop
  | init : SnapReachable [] C8.init
  | step (log : List String) (pub : C8) (line : String) (int : C8)
      (r : List String × C8) :
      SnapReachable log pub → send_state log pub line int = some r →
      SnapReachable r.1 r.2

/-! ### Concrete states used by the closed theorems and witnesses -/

/-- A quiescent emulation-thread state: default machine, cleared
framebuffer, no key pressed, idle latch, empty shared record. -/
def blankState : EmuState :=
  { internals := C8.init, gbuf := fun _ => 0, key_states := fun _ => false,
    wfi_register := -1, frozen := false, log := [], published := C8.init }

/-- A machine whose call stack is full (`SP = 16`). -/
def c2FullStack : EmuState :=
  { blankState with internals := { C8.init with SP := 16 } }

/-- A machine about to fetch at the last byte of memory (`PC = 4095`). -/
def c3FetchEdge : EmuState :=
  { blankState with internals := { C8.init with PC := 4095 } }

/-- A machine with the index register at the last byte of memory
(`I = 4095`) and `V1 = 1`. -/
def c3StoreEdge : EmuState :=
  { blankState with internals := { C8.init with I := 4095, V := upd (fun _ => 0) 1 1 } }

/-- A machine set up for the wrap-around draw of the specification:
`V0 = 63`, `V1 = 31`, and a two-row sprite (`0xFF`, `0x81`) at `I = 200`. -/
def c4WrapState : EmuState :=
  { blankState with internals := { C8.init with
      V := upd (upd (fun _ => 0) 0 63) 1 31,
      I := 200,
      memory := upd (upd (fun _ => 0) 200 255) 201 129 } }

/-- The expected outcome of the `0xD012` draw on `c4WrapState`. -/
def c4DrawResult : EmuState × String :=
  ({ c4WrapState with
     internals := { c4WrapState.internals with
       V := upd c4WrapState.internals.V 15
         (if (touchedCells c4WrapState.internals.memory c4WrapState.internals.I
               (c4WrapState.internals.V 0) (c4WrapState.internals.V 1) 2).any
             (fun c => c4WrapState.gbuf c == 1) then 1 else 0) },
     gbuf := fun c =>
       if c ∈ touchedCells c4WrapState.internals.memory c4WrapState.internals.I
             (c4WrapState.internals.V 0) (c4WrapState.internals.V 1) 2
       then Nat.xor (c4WrapState.gbuf c) 1 else c4WrapState.gbuf c },
   "Draw sprite at " ++ decStr (c4WrapState.internals.V 0) ++ ", " ++
     decStr (c4WrapState.internals.V 1) ++ " with length " ++ decStr 2)

/-- A keymap binding logical key `i` to host keycode `100 + i`. -/
def sampleKeymap : Nat → Nat := fun i => 100 + i

/-- A state blocked in the key wait of `0xF30A` (waiting register 3). -/
def c5WaitState : EmuState := { blankState with wfi_register := 3 }

/-- A paused state (cached pause flag set). -/
def c6Frozen : EmuState := { blankState with frozen := true }

/-- A machine with a one-pixel sprite (`0x80`) at `I = 300` and a clear
framebuffer. -/
def c7OnePixel : EmuState :=
  { blankState with internals := { C8.init with I := 300, memory := upd (fun _ => 0) 300 128 } }

/-- A machine whose register file holds `V[i] = i`. -/
def c8Regs : EmuState :=
  { blankState with internals := { C8.init with V := fun i => i } }

/-- A paused state that is also blocked in a key wait (register 2). -/
def c10FrozenWait : EmuState :=
  { blankState with frozen := true, wfi_register := 2 }

/-! ### Store-update lemmas -/

theorem upd_same (f : Nat → Nat) (i v : Nat) : upd f i v i = v := by
  simp [upd]

theorem upd_ne (f : Nat → Nat) (i v j : Nat) (h : j ≠ i) : upd f i v j = f j := by
  simp [upd, h]

theorem upd_upd_same (f : Nat → Nat) (i a b : Nat) :
    upd (upd f i a) i b = upd f i b := by
  funext j
  by_cases h : j = i <;> simp [upd, h]

/-! ### The source draw loop equals a fold over the touched cells -/

theorem drawBit_eq (mem : Nat → Nat) (I sx sy i : Nat) (st : (Nat → Nat) × Nat) (j : Nat) :
    drawBit sx sy i (mem (I + i) % 256) st j =
      if spriteBit mem I i j then touchStep st (cellIdx sx sy i j) else st := by
  by_cases h : 0 < Nat.land (mem (I + i) % 256) (128 >>> j) <;>
    simp [drawBit, spriteBit, touchStep, cellIdx, h]

theorem foldl_ite_step {α : Type} (p : Nat → Bool) (f : Nat → Nat) (step : α → Nat → α)
    (l : List Nat) (st : α) :
    l.foldl (fun st2 j => if p j then step st2 (f j) else st2) st =
      ((l.filter p).map f).foldl step st := by
  induction l generalizing st with
  | nil => rfl
  | cons a l ih =>
    by_cases h : p a <;> simp [List.filter_cons, h, ih]

theorem drawRow_eq (mem : Nat → Nat) (I sx sy i : Nat) (st : (Nat → Nat) × Nat) :
    drawRow mem I sx sy i st = (rowCells mem I sx sy i).foldl touchStep st := by
  unfold drawRow rowCells
  rw [← foldl_ite_step]
  exact List.foldl_ext _ _ st (fun st2 j _ => drawBit_eq mem I sx sy i st2 j)

theorem foldl_flatMap {α : Type} (l : List Nat) (f : Nat → List Nat)
    (step : α → Nat → α) (st : α) :
    (l.flatMap f).foldl step st = l.foldl (fun st2 i => (f i).foldl step st2) st := by
  induction l generalizing st with
  | nil => rfl
  | cons a l ih => simp [List.foldl_append, ih]

theorem drawRows_eq_foldl (mem : Nat → Nat) (I sx sy n : Nat) (st : (Nat → Nat) × Nat)
    (h : I + n ≤ 4096) :
    drawRows mem I sx sy n st =
      some ((touchedCells mem I sx sy n).foldl touchStep st) := by
  unfold drawRows touchedCells
  rw [foldl_flatMap]
  have hall : ∀ i ∈ List.range n, I + i < 4096 := by
    intro i hi
    have := List.mem_range.mp hi
    omega
  have key : ∀ (l : List Nat) (st : (Nat → Nat) × Nat), (∀ i ∈ l, I + i < 4096) →
      l.foldlM (fun st2 i => if I + i < 4096 then some (drawRow mem I sx sy i st2) else none) st
        = some (l.foldl (fun st2 i => (rowCells mem I sx sy i).foldl touchStep st2) st) := by
    intro l
    induction l with
    | nil => intro st _; rfl
    | cons a l ih =>
      intro st hl
      have ha : I + a < 4096 := hl a (List.mem_cons_self a l)
      simp only [List.foldlM_cons, ha, if_pos, List.foldl_cons]
      rw [drawRow_eq]
      exact ih _ (fun i hi => hl i (List.mem_cons_of_mem a hi))
  exact key (List.range n) st hall

theorem touchFold_eq (cs : List Nat) (g : Nat → Nat) (vf : Nat) (h : cs.Nodup) :
    cs.foldl touchStep (g, vf) =
      (fun c => if c ∈ cs then Nat.xor (g c) 1 else g c,
       cs.foldl (fun a c => Nat.max a (g c)) vf) := by
  induction cs generalizing g vf with
  | nil =>
    simp
  | cons a cs ih =>
    have hna : a ∉ cs := (List.nodup_cons.mp h).1
    have hcs : cs.Nodup := (List.nodup_cons.mp h).2
    have step1 : touchStep (g, vf) a = (upd g a (Nat.xor (g a) 1), Nat.max vf (g a)) := rfl
    simp only [List.foldl_cons, step1, ih _ _ hcs, Prod.mk.injEq]
    refine ⟨?_, ?_⟩
    · funext c
      by_cases hc : c = a
      · subst hc
        simp [hna, upd_same]
      · by_cases hmem : c ∈ cs <;> simp [hc, hmem, upd_ne _ _ _ _ hc]
    · exact List.foldl_ext _ _ _ (fun b c hc => by
        have hca : c ≠ a := fun hce => hna (hce ▸ hc)
        rw [upd_ne _ _ _ _ hca])

theorem touchedCells_nodup (mem : Nat → Nat) (I sx sy n : Nat) (hn : n ≤ 32) :
    (touchedCells mem I sx sy n).Nodup := by
  unfold touchedCells
  rw [List.nodup_flatMap]
  refine ⟨?_, ?_⟩
  · intro i _
    unfold rowCells
    refine List.Nodup.map_on ?_ (List.Nodup.filter _ (List.nodup_range 8))
    intro j1 h1 j2 h2 he
    have hj1 : j1 < 8 := List.mem_range.mp (List.mem_of_mem_filter h1)
    have hj2 : j2 < 8 := List.mem_range.mp (List.mem_of_mem_filter h2)
    unfold cellIdx at he
    omega
  · have hp : (List.range n).Pairwise (· < ·) := List.pairwise_lt_range n
    refine hp.imp_of_mem ?_
    intro i1 i2 hm1 hm2 hlt
    have hi1 : i1 < n := List.mem_range.mp hm1
    have hi2 : i2 < n := List.mem_range.mp hm2
    intro c hc1 hc2
    unfold rowCells at hc1 hc2
    obtain ⟨j1, hj1f, he1⟩ := List.mem_map.mp hc1
    obtain ⟨j2, hj2f, he2⟩ := List.mem_map.mp hc2
    have hj1 : j1 < 8 := List.mem_range.mp (List.mem_of_mem_filter hj1f)
    have hj2 : j2 < 8 := List.mem_range.mp (List.mem_of_mem_filter hj2f)
    rw [← he2] at he1
    unfold cellIdx at he1
    omega

theorem drawRows_char (mem : Nat → Nat) (I sx sy n : Nat) (g : Nat → Nat)
    (hI : I + n ≤ 4096) (hn : n ≤ 32) :
    drawRows mem I sx sy n (g, 0) =
      some (fun c => if c ∈ touchedCells mem I sx sy n then Nat.xor (g c) 1 else g c,
            (touchedCells mem I sx sy n).foldl (fun a c => Nat.max a (g c)) 0) := by
  rw [drawRows_eq_foldl mem I sx sy n (g, 0) hI,
      touchFold_eq _ _ _ (touchedCells_nodup mem I sx sy n hn)]

theorem foldl_max_binary (cs : List Nat) (g : Nat → Nat) (a : Nat)
    (hb : ∀ c ∈ cs, g c ≤ 1) (ha : a ≤ 1) :
    cs.foldl (fun a c => Nat.max a (g c)) a =
      if cs.any (fun c => g c == 1) ∨ a = 1 then 1 else 0 := by
  induction cs generalizing a with
  | nil =>
    simp only [List.foldl_nil, List.any_nil, Bool.false_eq_true, false_or]
    by_cases h : a = 1
    · simp [h]
    · simp [h]; omega
  | cons c cs ih =>
    have hgc : g c ≤ 1 := hb c (List.mem_cons_self c cs)
    have hrest : ∀ d ∈ cs, g d ≤ 1 := fun d hd => hb d (List.mem_cons_of_mem c hd)
    simp only [List.foldl_cons, List.any_cons]
    rw [ih (Nat.max a (g c)) hrest (Nat.max_le.mpr ⟨ha, hgc⟩)]
    by_cases h1 : g c = 1
    · have hm : Nat.max a (g c) = 1 := by rw [h1]; exact Nat.max_eq_right ha
      simp [h1, hm]
      exact fun _ => ha
    · have h0 : g c = 0 := by omega
      have hm : Nat.max a (g c) = a := by rw [h0]; exact Nat.max_eq_left (Nat.zero_le a)
      simp [h0, hm]

theorem execInstr_draw (s : EmuState) (rnd X Y N : Nat)
    (hX : X < 16) (hY : Y < 16) (hN : N < 16)
    (hI : s.internals.I + N ≤ 4096)
    (hb : ∀ c ∈ touchedCells s.internals.memory s.internals.I
            (s.internals.V X) (s.internals.V Y) N, s.gbuf c ≤ 1) :
    execInstr rnd (0xD000 + X * 256 + Y * 16 + N) s =
      some ({ s with
              internals := { s.internals with
                V := upd s.internals.V 15
                  (if (touchedCells s.internals.memory s.internals.I
                        (s.internals.V X) (s.internals.V Y) N).any
                      (fun c => s.gbuf c == 1) then 1 else 0) },
              gbuf := fun c =>
                if c ∈ touchedCells s.internals.memory s.internals.I
                      (s.internals.V X) (s.internals.V Y) N
                then Nat.xor (s.gbuf c) 1 else s.gbuf c },
            "Draw sprite at " ++ decStr (s.internals.V X) ++ ", " ++ decStr (s.internals.V Y) ++
              " with length " ++ decStr N) := by
  have e1 : (0xD000 + X * 256 + Y * 16 + N) / 4096 = 13 := by omega
  have e2 : (0xD000 + X * 256 + Y * 16 + N) / 256 % 16 = X := by omega
  have e3 : (0xD000 + X * 256 + Y * 16 + N) / 16 % 16 = Y := by omega
  have e4 : (0xD000 + X * 256 + Y * 16 + N) % 16 = N := by omega
  have hd := drawRows_char s.internals.memory s.internals.I
    (s.internals.V X) (s.internals.V Y) N s.gbuf hI (by omega)
  have hvf := foldl_max_binary (touchedCells s.internals.memory s.internals.I
    (s.internals.V X) (s.internals.V Y) N) s.gbuf 0 hb (by omega)
  simp only [execInstr, e1, e2, e3, e4, upd_same, hd, upd_upd_same, hvf]
  simp

theorem mem_touchedCells (mem : Nat → Nat) (I sx sy n c : Nat) :
    c ∈ touchedCells mem I sx sy n ↔
      ∃ row, row < n ∧ ∃ col, col < 8 ∧ spriteBit mem I row col = true ∧
        c = (sx + col) % 64 + ((sy + row) % 32) * 64 := by
  unfold touchedCells rowCells cellIdx
  simp only [List.mem_flatMap, List.mem_map, List.mem_filter, List.mem_range]
  constructor
  · rintro ⟨i, hi, j, ⟨hj, hb⟩, rfl⟩
    exact ⟨i, hi, j, hj, hb, by ring_nf⟩
  · rintro ⟨row, hr, col, hc, hb, rfl⟩
    exact ⟨row, hr, col, ⟨hc, hb⟩, by ring_nf⟩

/-! ### Trace-log helper lemmas -/

theorem pushTrace_cases (log : List String) (line : String) (h : log.length ≤ 100) :
    (pushTrace log line = log ++ [line] ∧ (log ++ [line]).length ≤ 100) ∨
    (pushTrace log line = (log ++ [line]).tail ∧ (log ++ [line]).length = 101) := by
  unfold pushTrace
  by_cases hl : (log ++ [line]).length > 100
  · right
    rw [if_pos hl]
    refine ⟨rfl, ?_⟩
    simp only [List.length_append, List.length_cons, List.length_nil] at hl ⊢
    omega
  · left
    rw [if_neg hl]
    exact ⟨rfl, by omega⟩

theorem pushTrace_len (log : List String) (line : String) (h : log.length ≤ 100) :
    (pushTrace log line).length ≤ 100 := by
  rcases pushTrace_cases log line h with ⟨he, hl⟩ | ⟨he, hl⟩
  · rw [he]; exact hl
  · rw [he, List.length_tail, hl]

theorem send_state_log_cases (log : List String) (pub : C8) (line : String) (int : C8)
    (r : List String × C8) (h : log.length ≤ 100)
    (hs : send_state log pub line int = some r) :
    r.1 = log ∨
    (r.1 = log ++ [line] ∧ (log ++ [line]).length ≤ 100) ∨
    (r.1 = (log ++ [line]).tail ∧ (log ++ [line]).length = 101) := by
  unfold send_state at hs
  by_cases he : int.endloop
  · rw [if_pos he] at hs
    cases hg : log.getLast? with
    | none => rw [hg] at hs; exact absurd hs (by simp)
    | some prev =>
      simp only [hg] at hs
      by_cases heq : line = prev
      · rw [if_pos heq] at hs
        left
        have : r = (log, pub) := by injection hs with h2; exact h2.symm
        rw [this]
      · rw [if_neg heq] at hs
        have : r = (pushTrace log line, int) := by injection hs with h2; exact h2.symm
        rw [this]
        right
        exact pushTrace_cases log line h
  · rw [if_neg he] at hs
    have : r = (pushTrace log line, int) := by injection hs with h2; exact h2.symm
    rw [this]
    right
    exact pushTrace_cases log line h

theorem snap_len (log : List String) (pub : C8) (h : SnapReachable log pub) :
    log.length ≤ 100 := by
  induction h with
  | init => simp
  | step log pub line int r hr hs ih =>
    rcases send_state_log_cases log pub line int r ih hs with h1 | ⟨h1, h2⟩ | ⟨h1, h2⟩
    · rw [h1]; exact ih
    · rw [h1]; exact h2
    · rw [h1, List.length_tail, h2]

/-! ### Claim theorems -/

/-- C1: the claim says a program whose only instruction is a `1NNN`
self-loop sets `endloop` and publishes exactly one trace entry.  On the
code, the `0x1NNN` arm does set `endloop` (second conjunct: jumping from
0x200 to 0x200 flags `Endloop`), but the very first publish then aborts:
with `endloop` set and the trace log still empty, `send_state` unwraps
`last()` of the empty log, so the first instruction tick of the ROM
`[0x12, 0x00]` is the `none` outcome (first conjunct) and no entry is
ever logged. -/
theorem c1_selfloop_first_tick_aborts :
    execute_opcodes false 0 (initState [0x12, 0x00]) = none ∧
    (execInstr 0 0x1200 { initState [0x12, 0x00] with
        internals := { (initState [0x12, 0x00]).internals with PC := 0x202 } }).map
      (fun p => (p.1.internals.endloop, p.1.internals.PC, p.2)) =
      some (true, 0x200, "Endloop") :=
  ⟨rfl, rfl⟩

/-- C2: the claim says a call with `SP = 16` and a return with `SP = 0`
terminate the emulation thread with a reported stack-overflow or
stack-underflow error, not an uncontrolled panic.  On the code both are
plain Rust index aborts: `0x2NNN` with a full stack writes `stack[16]`
and `0x00EE` with an empty stack evaluates `SP - 1` and indexes the
stack out of range, so both instructions are the `none` outcome (an
index-out-of-bounds panic), with no error reported to the observer. -/
theorem c2_stack_overflow_underflow_abort :
    execInstr 0 0x2345 c2FullStack = none ∧
    execInstr 0 0x00EE blankState = none :=
  ⟨rfl, rfl⟩

/-- C3: the claim says an out-of-range memory index produced by a decoded
instruction is a fatal, reported error and never an uncontrolled panic.
On the code each such access is a plain Rust bounds-checked index abort
(the `none` outcome), not a reported error: fetching at `PC = 4095`
reads `memory[4096]`, `0xF155` with `I = 4095` and `X = 1` writes
`memory[4095..=4096]`, `0xF165` reads the same slice, and `0xD012` with
`I = 4095` reads the second sprite byte at `memory[4096]`. -/
theorem c3_out_of_range_access_aborts :
    execute_opcodes false 0 c3FetchEdge = none ∧
    execInstr 0 0xF155 c3StoreEdge = none ∧
    execInstr 0 0xF165 c3StoreEdge = none ∧
    execInstr 0 0xD012 c3StoreEdge = none :=
  ⟨rfl, rfl, rfl, rfl⟩

/-- C4: a `0xDXYN` draw touches exactly the cells
`((V[X]+column) mod 64, (V[Y]+row) mod 32)` for each set sprite bit
(first conjunct: the touched-cell list in flat framebuffer indexing,
wrapped and never clipped), sets `V[0xF]` to 1 exactly when some touched
cell was already set before the XOR, and XORs each touched cell with 1,
leaving every other cell and register unchanged (second conjunct). -/
theorem c4_draw_wraps_and_sets_collision (s : EmuState) (rnd X Y N : Nat)
    (hX : X < 16) (hY : Y < 16) (hN : N < 16)
    (hI : s.internals.I + N ≤ 4096)
    (hb : ∀ c ∈ touchedCells s.internals.memory s.internals.I
            (s.internals.V X) (s.internals.V Y) N, s.gbuf c ≤ 1) :
    (∀ c, c ∈ touchedCells s.internals.memory s.internals.I
            (s.internals.V X) (s.internals.V Y) N ↔
       ∃ row, row < N ∧ ∃ col, col < 8 ∧
         spriteBit s.internals.memory s.internals.I row col = true ∧
         c = (s.internals.V X + col) % 64 + ((s.internals.V Y + row) % 32) * 64) ∧
    execInstr rnd (0xD000 + X * 256 + Y * 16 + N) s =
      some ({ s with
              internals := { s.internals with
                V := upd s.internals.V 15
                  (if (touchedCells s.internals.memory s.internals.I
                        (s.internals.V X) (s.internals.V Y) N).any
                      (fun c => s.gbuf c == 1) then 1 else 0) },
              gbuf := fun c =>
                if c ∈ touchedCells s.internals.memory s.internals.I
                      (s.internals.V X) (s.internals.V Y) N
                then Nat.xor (s.gbuf c) 1 else s.gbuf c },
            "Draw sprite at " ++ decStr (s.internals.V X) ++ ", " ++ decStr (s.internals.V Y) ++
              " with length " ++ decStr N) :=
  ⟨fun c => mem_touchedCells s.internals.memory s.internals.I
    (s.internals.V X) (s.internals.V Y) N c,
   execInstr_draw s rnd X Y N hX hY hN hI hb⟩

/-- Witness for C4 at the wrap-around example of the specification: a
width-8, height-2 sprite drawn at `(63, 31)` on a clear screen. -/
theorem c4_draw_wraps_and_sets_collision_witness :
    ((0:Nat) < 16 ∧ (1:Nat) < 16 ∧ (2:Nat) < 16 ∧
     c4WrapState.internals.I + 2 ≤ 4096 ∧
     (∀ c ∈ touchedCells c4WrapState.internals.memory c4WrapState.internals.I
        (c4WrapState.internals.V 0) (c4WrapState.internals.V 1) 2,
        c4WrapState.gbuf c ≤ 1)) ∧
    execInstr 0 (0xD000 + 0 * 256 + 1 * 16 + 2) c4WrapState = some c4DrawResult :=
  ⟨⟨by decide, by decide, by decide, by decide, by decide⟩,
   (c4_draw_wraps_and_sets_collision c4WrapState 0 0 1 2 (by decide) (by decide)
     (by decide) (by decide) (by decide)).2⟩

/-- C5: the key-wait state machine.  While `wfi_register` is armed, an
instruction tick is a no-op: no fetch, no execution, no `PC` advance, no
publish (first conjunct; only the cached pause flag is refreshed).  A
key-release event only updates `key_states` and never touches the wait
state, the registers or anything else (second conjunct).  A key press
that the keymap maps to a logical index, arriving while waiting and not
paused, writes that index into the waited-on register and clears the
latch in the same event (third conjunct).  Conversely the latch is
cleared only by such a mapped key-press event: whenever an event ends
the wait, it is a `KeyDown` whose keycode the keymap maps to some index,
the machine was not paused, and the pressed index was written into the
waited-on register (fourth conjunct). -/
theorem c5_key_wait_gate_and_resolution :
    (∀ f rnd s, s.wfi_register ≠ -1 →
       execute_opcodes f rnd s = some { s with frozen := f }) ∧
    (∀ km kc s, ∃ ks, handle_event km (Event.keyUp kc) s = { s with key_states := ks }) ∧
    (∀ km kc s x key, s.wfi_register = Int.ofNat x → s.frozen = false →
       keycode_to_index kc km = some key →
       handle_event km (Event.keyDown kc) s =
         { s with key_states := updB s.key_states key true,
                  internals := { s.internals with V := upd s.internals.V x key },
                  wfi_register := -1 }) ∧
    (∀ km e s, s.wfi_register ≠ -1 → (handle_event km e s).wfi_register = -1 →
       ∃ kc key, e = Event.keyDown kc ∧ keycode_to_index kc km = some key ∧
         s.frozen = false ∧
         (handle_event km e s).internals.V s.wfi_register.toNat = key) := by
  refine ⟨?_, ?_, ?_, ?_⟩
  · intro f rnd s h
    cases f
    · simp [execute_opcodes, h]
    · simp [execute_opcodes]
  · intro km kc s
    cases hkc : keycode_to_index kc km with
    | none => exact ⟨s.key_states, by simp [handle_event, hkc]⟩
    | some key => exact ⟨updB s.key_states key false, by simp [handle_event, hkc]⟩
  · intro km kc s x key hw hf hkc
    have hne : s.wfi_register ≠ -1 := by
      rw [hw]; simp
    have ht : s.wfi_register.toNat = x := by rw [hw]; rfl
    simp only [handle_event, hkc]
    rw [if_pos]
    · rw [ht]
    · exact ⟨hne, hf⟩
  · intro km e s hw hres
    cases e with
    | keyUp kc =>
      exfalso
      apply hw
      rw [← hres]
      cases hkc : keycode_to_index kc km <;> simp [handle_event, hkc]
    | keyDown kc =>
      cases hkc : keycode_to_index kc km with
      | none =>
        exfalso
        apply hw
        rw [← hres]
        simp [handle_event, hkc]
      | some key =>
        by_cases hcond : s.wfi_register ≠ -1 ∧ s.frozen = false
        · refine ⟨kc, key, rfl, hkc, hcond.2, ?_⟩
          simp only [handle_event, hkc]
          rw [if_pos hcond]
          exact upd_same _ _ _
        · exfalso
          apply hw
          rw [← hres]
          simp only [handle_event, hkc]
          rw [if_neg hcond]

/-- Witness for C5: while register 3 waits for a key and the machine is
not paused, host keycode 105 (logical key 5 under `sampleKeymap`)
resolves the wait. -/
theorem c5_key_wait_gate_and_resolution_witness :
    (c5WaitState.wfi_register = Int.ofNat 3 ∧ c5WaitState.frozen = false ∧
     keycode_to_index 105 sampleKeymap = some 5) ∧
    handle_event sampleKeymap (Event.keyDown 105) c5WaitState =
      { c5WaitState with
        key_states := updB c5WaitState.key_states 5 true,
        internals := { c5WaitState.internals with V := upd c5WaitState.internals.V 3 5 },
        wfi_register := -1 } :=
  ⟨⟨rfl, rfl, by decide⟩,
   c5_key_wait_gate_and_resolution.2.2.1 sampleKeymap 105 c5WaitState 3 5 rfl rfl (by decide)⟩

/-- C6: while the pause flag is set an instruction tick changes nothing
but the cached flag: the machine state, the framebuffer, the trace log
and the published copy are all untouched (first conjunct); the 60 Hz
handler skips the timer decrements while the cached pause flag is set
(second conjunct); and resuming continues from the frozen state: an
unpaused tick behaves identically whatever the cached flag held before
(third conjunct). -/
theorem c6_pause_freezes_machine :
    (∀ rnd s, execute_opcodes true rnd s = some { s with frozen := true }) ∧
    (∀ s, s.frozen = true → execute_render s = s) ∧
    (∀ rnd s b, execute_opcodes false rnd { s with frozen := b } =
      execute_opcodes false rnd s) := by
  refine ⟨?_, ?_, ?_⟩
  · intro rnd s
    simp [execute_opcodes]
  · intro s h
    simp [execute_render, h]
  · intro rnd s b
    rfl

/-- Witness for C6: the 60 Hz handler leaves a paused state untouched. -/
theorem c6_pause_freezes_machine_witness :
    c6Frozen.frozen = true ∧ execute_render c6Frozen = c6Frozen :=
  ⟨rfl, c6_pause_freezes_machine.2.1 c6Frozen rfl⟩

/-- C7: drawing the same non-empty sprite twice at the same coordinates
(origin registers distinct from `V[0xF]`), starting from a framebuffer
whose touched cells are all clear, leaves `V[0xF] = 0` after the first
draw and `V[0xF] = 1` after the second, sets every touched cell on the
first draw, and restores the whole framebuffer after the second. -/
theorem c7_double_draw_restores (s : EmuState) (rnd1 rnd2 X Y N : Nat)
    (hX : X < 16) (hY : Y < 16) (hN : N < 16)
    (hX15 : X ≠ 15) (hY15 : Y ≠ 15)
    (hI : s.internals.I + N ≤ 4096)
    (hne : touchedCells s.internals.memory s.internals.I
            (s.internals.V X) (s.internals.V Y) N ≠ [])
    (hclear : ∀ c ∈ touchedCells s.internals.memory s.internals.I
            (s.internals.V X) (s.internals.V Y) N, s.gbuf c = 0) :
    ∃ s1 d1 s2 d2,
      execInstr rnd1 (0xD000 + X * 256 + Y * 16 + N) s = some (s1, d1) ∧
      execInstr rnd2 (0xD000 + X * 256 + Y * 16 + N) s1 = some (s2, d2) ∧
      s1.internals.V 15 = 0 ∧ s2.internals.V 15 = 1 ∧
      (∀ c ∈ touchedCells s.internals.memory s.internals.I
          (s.internals.V X) (s.internals.V Y) N, s1.gbuf c = 1) ∧
      (∀ c, s2.gbuf c = s.gbuf c) := by
  set tc := touchedCells s.internals.memory s.internals.I
      (s.internals.V X) (s.internals.V Y) N with htc
  have hb1 : ∀ c ∈ tc, s.gbuf c ≤ 1 := fun c hc => by rw [hclear c hc]; omega
  have h1 := execInstr_draw s rnd1 X Y N hX hY hN hI hb1
  have hany1 : tc.any (fun c => s.gbuf c == 1) = false := by
    rw [List.any_eq_false]
    intro c hc
    simp [hclear c hc]
  rw [← htc, hany1] at h1
  simp only [Bool.false_eq_true, if_false] at h1
  set s1 : EmuState :=
    { s with
      internals := { s.internals with V := upd s.internals.V 15 0 },
      gbuf := fun c => if c ∈ tc then Nat.xor (s.gbuf c) 1 else s.gbuf c } with hs1
  have hVX : s1.internals.V X = s.internals.V X := upd_ne _ _ _ _ hX15
  have hVY : s1.internals.V Y = s.internals.V Y := upd_ne _ _ _ _ hY15
  have htc1 : touchedCells s1.internals.memory s1.internals.I
      (s1.internals.V X) (s1.internals.V Y) N = tc := by
    show touchedCells s.internals.memory s.internals.I
      (upd s.internals.V 15 0 X) (upd s.internals.V 15 0 Y) N = tc
    rw [upd_ne _ _ _ _ hX15, upd_ne _ _ _ _ hY15]
  have hg1 : ∀ c ∈ tc, s1.gbuf c = 1 := by
    intro c hc
    show (if c ∈ tc then Nat.xor (s.gbuf c) 1 else s.gbuf c) = 1
    rw [if_pos hc, hclear c hc]
    decide
  have hb2 : ∀ c ∈ touchedCells s1.internals.memory s1.internals.I
      (s1.internals.V X) (s1.internals.V Y) N, s1.gbuf c ≤ 1 := by
    rw [htc1]
    intro c hc
    rw [hg1 c hc]
  have hI2 : s1.internals.I + N ≤ 4096 := hI
  have h2 := execInstr_draw s1 rnd2 X Y N hX hY hN hI2 hb2
  rw [htc1] at h2
  have hany2 : tc.any (fun c => s1.gbuf c == 1) = true := by
    rw [List.any_eq_true]
    obtain ⟨c, hc⟩ := List.exists_mem_of_ne_nil tc hne
    refine ⟨c, hc, ?_⟩
    show (s1.gbuf c == 1) = true
    rw [hg1 c hc]
    decide
  rw [hany2] at h2
  simp only [if_true] at h2
  refine ⟨s1, _, _, _, h1, h2, ?_, ?_, hg1, ?_⟩
  · show upd s.internals.V 15 0 15 = 0
    exact upd_same _ _ _
  · show upd s1.internals.V 15 1 15 = 1
    exact upd_same _ _ _
  · intro c
    show (if c ∈ tc then Nat.xor (s1.gbuf c) 1 else s1.gbuf c) = s.gbuf c
    by_cases hc : c ∈ tc
    · rw [if_pos hc, hg1 c hc, hclear c hc]
      decide
    · rw [if_neg hc]
      show (if c ∈ tc then Nat.xor (s.gbuf c) 1 else s.gbuf c) = s.gbuf c
      rw [if_neg hc]

/-- Witness for C7: a one-pixel sprite at `I = 300` drawn twice with
`0xD011` on a clear framebuffer. -/
theorem c7_double_draw_restores_witness :
    ((0:Nat) < 16 ∧ (1:Nat) < 16 ∧ (1:Nat) < 16 ∧ (0:Nat) ≠ 15 ∧ (1:Nat) ≠ 15 ∧
     c7OnePixel.internals.I + 1 ≤ 4096 ∧
     touchedCells c7OnePixel.internals.memory c7OnePixel.internals.I
       (c7OnePixel.internals.V 0) (c7OnePixel.internals.V 1) 1 ≠ [] ∧
     (∀ c ∈ touchedCells c7OnePixel.internals.memory c7OnePixel.internals.I
        (c7OnePixel.internals.V 0) (c7OnePixel.internals.V 1) 1,
        c7OnePixel.gbuf c = 0)) ∧
    (∃ s1 d1 s2 d2,
      execInstr 0 (0xD000 + 0 * 256 + 1 * 16 + 1) c7OnePixel = some (s1, d1) ∧
      execInstr 0 (0xD000 + 0 * 256 + 1 * 16 + 1) s1 = some (s2, d2) ∧
      s1.internals.V 15 = 0 ∧ s2.internals.V 15 = 1 ∧
      (∀ c ∈ touchedCells c7OnePixel.internals.memory c7OnePixel.internals.I
          (c7OnePixel.internals.V 0) (c7OnePixel.internals.V 1) 1, s1.gbuf c = 1) ∧
      (∀ c, s2.gbuf c = c7OnePixel.gbuf c)) :=
  ⟨⟨by decide, by decide, by decide, by decide, by decide, by decide, by decide, by decide⟩,
   c7_double_draw_restores c7OnePixel 0 0 0 1 1 (by decide) (by decide) (by decide)
     (by decide) (by decide) (by decide) (by decide) (by decide)⟩

/-- C8: for every state and register pair, `0x8XY1`, `0x8XY2` and
`0x8XY3` store `V[X] OR V[Y]`, `V[X] AND V[Y]` and `V[X] XOR V[Y]` into
`V[X]` and then clear `V[0xF]` to 0, leaving everything else (including
`PC`, which the surrounding fetch already advanced) unchanged. -/
theorem c8_bitwise_ops_clear_flag (s : EmuState) (rnd X Y : Nat)
    (hX : X < 16) (hY : Y < 16) :
    (execInstr rnd (0x8000 + X * 256 + Y * 16 + 1) s =
      some ({ s with internals := { s.internals with
                V := upd (upd s.internals.V X
                        (Nat.lor (s.internals.V X) (s.internals.V Y))) 15 0 } },
            "Adding V" ++ hexPad 1 X ++ "to V" ++ hexPad 1 X ++ " OR V" ++ hexPad 1 Y ++ ")")) ∧
    (execInstr rnd (0x8000 + X * 256 + Y * 16 + 2) s =
      some ({ s with internals := { s.internals with
                V := upd (upd s.internals.V X
                        (Nat.land (s.internals.V X) (s.internals.V Y))) 15 0 } },
            "Set V" ++ hexPad 1 X ++ " to V" ++ hexPad 1 X ++ " AND V" ++ hexPad 1 Y)) ∧
    (execInstr rnd (0x8000 + X * 256 + Y * 16 + 3) s =
      some ({ s with internals := { s.internals with
                V := upd (upd s.internals.V X
                        (Nat.xor (s.internals.V X) (s.internals.V Y))) 15 0 } },
            "Set V" ++ hexPad 1 X ++ " to V" ++ hexPad 1 X ++ " XOR V" ++ hexPad 1 Y)) := by
  refine ⟨?_, ?_, ?_⟩
  · have e1 : (0x8000 + X * 256 + Y * 16 + 1) / 4096 = 8 := by omega
    have e2 : (0x8000 + X * 256 + Y * 16 + 1) / 256 % 16 = X := by omega
    have e3 : (0x8000 + X * 256 + Y * 16 + 1) / 16 % 16 = Y := by omega
    have e4 : (0x8000 + X * 256 + Y * 16 + 1) % 16 = 1 := by omega
    simp only [execInstr, e1, e2, e3, e4]
  · have e1 : (0x8000 + X * 256 + Y * 16 + 2) / 4096 = 8 := by omega
    have e2 : (0x8000 + X * 256 + Y * 16 + 2) / 256 % 16 = X := by omega
    have e3 : (0x8000 + X * 256 + Y * 16 + 2) / 16 % 16 = Y := by omega
    have e4 : (0x8000 + X * 256 + Y * 16 + 2) % 16 = 2 := by omega
    simp only [execInstr, e1, e2, e3, e4]
  · have e1 : (0x8000 + X * 256 + Y * 16 + 3) / 4096 = 8 := by omega
    have e2 : (0x8000 + X * 256 + Y * 16 + 3) / 256 % 16 = X := by omega
    have e3 : (0x8000 + X * 256 + Y * 16 + 3) / 16 % 16 = Y := by omega
    have e4 : (0x8000 + X * 256 + Y * 16 + 3) % 16 = 3 := by omega
    simp only [execInstr, e1, e2, e3, e4]

/-- Witness for C8: `0x8121` on the register file `V[i] = i` ORs `V2`
into `V1` and clears `V[0xF]`. -/
theorem c8_bitwise_ops_clear_flag_witness :
    ((1:Nat) < 16 ∧ (2:Nat) < 16) ∧
    execInstr 0 (0x8000 + 1 * 256 + 2 * 16 + 1) c8Regs =
      some ({ c8Regs with internals := { c8Regs.internals with
                V := upd (upd c8Regs.internals.V 1
                        (Nat.lor (c8Regs.internals.V 1) (c8Regs.internals.V 2))) 15 0 } },
            "Adding V" ++ hexPad 1 1 ++ "to V" ++ hexPad 1 1 ++ " OR V" ++ hexPad 1 2 ++ ")") :=
  ⟨⟨by decide, by decide⟩,
   (c8_bitwise_ops_clear_flag c8Regs 0 1 2 (by decide) (by decide)).1⟩

/-- C9: every snapshot record reachable through `send_state` from the
cleared record keeps at most 100 trace entries, and one further publish
either leaves the log unchanged (the endloop dedupe), appends the new
line at the newest end while staying within capacity, or appends it and
evicts exactly the oldest entry (the head) when the capacity would be
exceeded — FIFO eviction in oldest-to-newest order. -/
theorem c9_trace_log_bounded_fifo (log : List String) (pub : C8)
    (h : SnapReachable log pub) :
    log.length ≤ 100 ∧
    (∀ line int r, send_state log pub line int = some r →
      r.1 = log ∨
      (r.1 = log ++ [line] ∧ (log ++ [line]).length ≤ 100) ∨
      (r.1 = (log ++ [line]).tail ∧ (log ++ [line]).length = 101)) :=
  ⟨snap_len log pub h,
   fun line int r hs => send_state_log_cases log pub line int r (snap_len log pub h) hs⟩

/-- Witness for C9 at the initial (cleared) snapshot record. -/
theorem c9_trace_log_bounded_fifo_witness :
    ([] : List String).length ≤ 100 ∧
    (∀ line int r, send_state [] C8.init line int = some r →
      r.1 = ([] : List String) ∨
      (r.1 = [] ++ [line] ∧ (([] : List String) ++ [line]).length ≤ 100) ∨
      (r.1 = (([] : List String) ++ [line]).tail ∧
        (([] : List String) ++ [line]).length = 101)) :=
  c9_trace_log_bounded_fifo [] C8.init SnapReachable.init

/-- C10: while the cached pause flag is set, a mapped key press still
records the key as pressed in `key_states` but does not resolve a
pending `0xFX0A` wait: the waited-on register is not written and the
latch keeps its value (the whole state change is exactly the
`key_states` update). -/
theorem c10_frozen_keydown_ignores_wait (km : Nat → Nat) (kc : Nat) (s : EmuState)
    (key : Nat) (hfr : s.frozen = true) (hkc : keycode_to_index kc km = some key) :
    handle_event km (Event.keyDown kc) s =
      { s with key_states := updB s.key_states key true } := by
  simp only [handle_event, hkc]
  rw [if_neg]
  intro hcond
  rw [hfr] at hcond
  exact absurd hcond.2 (by simp)

/-- Witness for C10: keycode 104 (logical key 4) pressed while paused
and waiting on register 2 only updates `key_states`. -/
theorem c10_frozen_keydown_ignores_wait_witness :
    (c10FrozenWait.frozen = true ∧ keycode_to_index 104 sampleKeymap = some 4) ∧
    handle_event sampleKeymap (Event.keyDown 104) c10FrozenWait =
      { c10FrozenWait with key_states := updB c10FrozenWait.key_states 4 true } :=
  ⟨⟨rfl, by decide⟩,
   c10_frozen_keydown_ignores_wait sampleKeymap 104 c10FrozenWait 4 rfl (by decide)⟩

end Chip8
